import Mathlib

/-!
Verification of the quotes-to-JSON converter (Go sources `src/main.go` and
`src/utils/readFromExcel.go`).  The spreadsheet library, the wall clock and
the filesystem are external collaborators: rows arrive as
`List (List String)`, the clock reading is a `String` parameter, and each
file write's outcome is an `Option String` parameter (`none` = success,
`some e` = the write fails with cause `e`).
-/

namespace ToJson

/-- Go struct `Quote` (`src/main.go`).  `author`, `year` and `context` carry
Go zero values and are tagged `omitempty`; the row mapping never sets them. -/
structure Quote where
  id : Int
  text : String
  author : String := ""
  year : Int := 0
  context : String := ""
  tags : List String
  language : String
deriving DecidableEq, Repr

/-- Go `strings.ReplaceAll(s, " ", "")` on the character list of `s`:
every space character is dropped. -/
def removeSpaces : List Char → List Char
  | [] => []
  | c :: cs => if c = ' ' then removeSpaces cs else c :: removeSpaces cs

/-- Go `strings.Split(s, ",")` on the character list of `s`: the empty
string yields `[[]]`, and every comma starts a new field. -/
def splitComma : List Char → List (List Char)
  | [] => [[]]
  | c :: cs =>
    if c = ',' then [] :: splitComma cs
    else
      match splitComma cs with
      | [] => [[c]]
      | t :: ts => (c :: t) :: ts

/-- Go `strings.ReplaceAll(s, " ", "")` at `String` type. -/
def goReplaceSpaces (s : String) : String := String.mk (removeSpaces s.data)

/-- Go `strings.Split(s, ",")` at `String` type. -/
def goSplitComma (s : String) : List String := (splitComma s.data).map String.mk

/-- Lines 112-122 of `ReadExcelFile` in `src/main.go`: build one `Quote`
from the row at zero-based index `i`.  Only reached when `2 ≤ row.length`,
so the `getD` defaults never fire. -/
def mkQuote (i : Nat) (row : List String) : Quote :=
  let rawTags := goReplaceSpaces (row.getD 0 "")
  let tags := goSplitComma rawTags
  { id := (i : Int), text := row.getD 1 "", tags := tags, language := "en-US" }

/-- The row loop of `ReadExcelFile` in `src/main.go` (lines 100-137) with the
loop state passed explicitly: `i` is the row index, `batch` the current batch
and `acc` the accumulated quotes; the `[]` case is the trailing flush of the
partial batch (lines 134-137). -/
def readExcelLoop (batchSize : Nat) :
    List (List String) → Nat → List Quote → List Quote → List Quote
  | [], _, batch, acc => if 0 < batch.length then acc ++ batch else acc
  | row :: rest, i, batch, acc =>
    if i = 0 then readExcelLoop batchSize rest (i + 1) batch acc
    else if row.length < 2 then readExcelLoop batchSize rest (i + 1) batch acc
    else
      let batch2 := batch ++ [mkQuote i row]
      if batchSize ≤ batch2.length then
        readExcelLoop batchSize rest (i + 1) [] (acc ++ batch2)
      else
        readExcelLoop batchSize rest (i + 1) batch2 acc

/-- The accumulated record sequence of `ReadExcelFile` (`src/main.go`,
`batchSize := 100`). -/
def accumulatedQuotes (rows : List (List String)) : List Quote :=
  readExcelLoop 100 rows 0 [] []

/-- The row loop of the unbatched variant of `ReadExcelFile` in
`src/utils/readFromExcel.go` (lines 86-109): same skip logic, each record
appended directly to the result. -/
def unbatchedLoop : List (List String) → Nat → List Quote
  | [], _ => []
  | row :: rest, i =>
    if i = 0 then unbatchedLoop rest (i + 1)
    else if row.length < 2 then unbatchedLoop rest (i + 1)
    else mkQuote i row :: unbatchedLoop rest (i + 1)

/-- Record sequence of the unbatched variant (`src/utils/readFromExcel.go`). -/
def unbatchedQuotes (rows : List (List String)) : List Quote :=
  unbatchedLoop rows 0

theorem readExcelLoop_eq (batchSize : Nat) (rows : List (List String)) :
    ∀ (i : Nat) (batch acc : List Quote),
      readExcelLoop batchSize rows i batch acc = acc ++ batch ++ unbatchedLoop rows i := by
  induction rows with
  | nil =>
    intro i batch acc
    cases batch <;> simp [readExcelLoop, unbatchedLoop]
  | cons row rest ih =>
    intro i batch acc
    by_cases h0 : i = 0
    · simp [readExcelLoop, unbatchedLoop, h0, ih]
    · by_cases hlen : row.length < 2
      · simp [readExcelLoop, unbatchedLoop, h0, hlen, ih]
      · by_cases hb : batchSize ≤ (batch ++ [mkQuote i row]).length
        · simp [readExcelLoop, unbatchedLoop, h0, hlen, hb, ih]
        · simp [readExcelLoop, unbatchedLoop, h0, hlen, hb, ih]

/-- C1: the batched accumulation of `ReadExcelFile` in `src/main.go`
(collect records into batches of 100, append each full batch to the
accumulated sequence, then append the partial trailing batch) produces,
for every input row sequence, exactly the record sequence of the unbatched
row loop of `src/utils/readFromExcel.go`: batching is an identity
transformation on the record sequence. -/
theorem batched_eq_unbatched (rows : List (List String)) :
    accumulatedQuotes rows = unbatchedQuotes rows := by
  simp [accumulatedQuotes, unbatchedQuotes, readExcelLoop_eq]

theorem splitComma_ne_nil (l : List Char) : splitComma l ≠ [] := by
  induction l with
  | nil => simp [splitComma]
  | cons c cs ih =>
    by_cases hc : c = ','
    · simp [splitComma, hc]
    · cases h : splitComma cs <;> simp [splitComma, hc, h]

theorem goSplitComma_ne_nil (s : String) : goSplitComma s ≠ [] := by
  have h := splitComma_ne_nil s.data
  cases hs : splitComma s.data
  · exact absurd hs h
  · simp [goSplitComma, hs]

theorem unbatchedLoop_filter (rows : List (List String)) :
    ∀ i : Nat,
      unbatchedLoop rows i =
        ((rows.enumFrom i).filter fun p => decide (1 ≤ p.1 ∧ 2 ≤ p.2.length)).map
          fun p => mkQuote p.1 p.2 := by
  induction rows with
  | nil => intro i; simp [unbatchedLoop]
  | cons row rest ih =>
    intro i
    by_cases h0 : i = 0
    · subst h0
      simp [unbatchedLoop, List.enumFrom, List.filter_cons, ih]
    · by_cases hlen : row.length < 2
      · have h2 : ¬ 2 ≤ row.length := by omega
        simp [unbatchedLoop, List.enumFrom, List.filter_cons, ih, h0, h2]
      · have h1 : 1 ≤ i := Nat.one_le_iff_ne_zero.mpr h0
        have h2 : 2 ≤ row.length := by omega
        simp [unbatchedLoop, List.enumFrom, List.filter_cons, ih, h0, hlen, h1, h2]

/-- C3: a row of `rows` yields a record in the output of `ReadExcelFile`
(`src/main.go`) if and only if its zero-based index is at least 1 and it has
at least 2 cells; retained rows appear in original row order.  Stated as a
characterization: the accumulated quotes are exactly the kept rows of the
index-annotated row list, mapped through the row-to-record conversion. -/
theorem retention_characterization (rows : List (List String)) :
    accumulatedQuotes rows =
      ((rows.enum.filter fun p => decide (1 ≤ p.1 ∧ 2 ≤ p.2.length)).map
        fun p => mkQuote p.1 p.2) := by
  have h := readExcelLoop_eq 100 rows 0 [] []
  simp only [accumulatedQuotes, h, List.nil_append]
  exact unbatchedLoop_filter rows 0

theorem mem_accumulated (rows : List (List String)) (q : Quote) :
    q ∈ accumulatedQuotes rows →
      ∃ i row, rows.get? i = some row ∧ 1 ≤ i ∧ 2 ≤ row.length ∧ q = mkQuote i row := by
  intro hq
  rw [accumulatedQuotes, readExcelLoop_eq 100 rows 0 [] [], List.nil_append, List.nil_append,
    unbatchedLoop_filter rows 0] at hq
  obtain ⟨p, hp, hq⟩ := List.mem_map.mp hq
  obtain ⟨hpe, hcond⟩ := List.mem_filter.mp hp
  obtain ⟨h1, h2⟩ := of_decide_eq_true hcond
  obtain ⟨i, row⟩ := p
  have hget : rows.get? i = some row := by
    have := List.mem_enum_iff_getElem?.mp hpe
    simpa [List.get?_eq_getElem?] using this
  exact ⟨i, row, hget, h1, h2, hq.symm⟩

/-- C2: every record produced by `ReadExcelFile` (`src/main.go`) has `id`
equal to the zero-based index of its source row within the full row set
(header included), not a 1-based counter over retained rows; on a concrete
input whose row at index 2 is skipped for having fewer than 2 cells, the
output ids are `[1, 3]` — not contiguous. -/
theorem id_is_source_row_index :
    (∀ (rows : List (List String)) (q : Quote), q ∈ accumulatedQuotes rows →
      ∃ i row, rows.get? i = some row ∧ 1 ≤ i ∧ 2 ≤ row.length ∧
        q = mkQuote i row ∧ q.id = (i : Int)) ∧
    (accumulatedQuotes [["Tags", "Quote"], ["t", "a"], ["x"], ["t", "b"]]).map Quote.id
      = [1, 3] := by
  constructor
  · intro rows q hq
    obtain ⟨i, row, hget, h1, h2, hq⟩ := mem_accumulated rows q hq
    exact ⟨i, row, hget, h1, h2, hq, by rw [hq]; rfl⟩
  · decide

/-- C2 witness: the theorem applied to a concrete two-row input whose single
retained row sits at source index 1. -/
theorem id_is_source_row_index_witness :
    ∃ i row, [[""], ["t", "a"]].get? i = some row ∧ 1 ≤ i ∧ 2 ≤ row.length ∧
      mkQuote 1 ["t", "a"] = mkQuote i row ∧ (mkQuote 1 ["t", "a"]).id = (i : Int) :=
  id_is_source_row_index.1 [[""], ["t", "a"]] (mkQuote 1 ["t", "a"]) (by decide)

/-- C4: every record produced by `ReadExcelFile` (`src/main.go`) takes its
tags from cell 0 with all spaces removed and then split on commas, its text
verbatim from cell 1, and the constant language `"en-US"`; the tags sequence
is never empty, and the two example inputs behave as the spec states. -/
theorem tags_text_language :
    (∀ (rows : List (List String)) (q : Quote), q ∈ accumulatedQuotes rows →
      q.tags ≠ [] ∧ q.language = "en-US" ∧
      ∃ i row, rows.get? i = some row ∧
        q.tags = goSplitComma (goReplaceSpaces (row.getD 0 "")) ∧
        q.text = row.getD 1 "") ∧
    goSplitComma (goReplaceSpaces "inspiration, motivation")
      = ["inspiration", "motivation"] ∧
    goSplitComma (goReplaceSpaces "") = [""] := by
  refine ⟨?_, by decide, by decide⟩
  intro rows q hq
  obtain ⟨i, row, hget, _, _, hq⟩ := mem_accumulated rows q hq
  subst hq
  exact ⟨goSplitComma_ne_nil _, rfl, i, row, hget, rfl, rfl⟩

/-- C4 witness: the theorem applied to a concrete input with one retained
row. -/
theorem tags_text_language_witness :
    (mkQuote 1 ["a, b", "hello"]).tags ≠ [] ∧
    (mkQuote 1 ["a, b", "hello"]).language = "en-US" ∧
    ∃ i row, [[""], ["a, b", "hello"]].get? i = some row ∧
      (mkQuote 1 ["a, b", "hello"]).tags = goSplitComma (goReplaceSpaces (row.getD 0 "")) ∧
      (mkQuote 1 ["a, b", "hello"]).text = row.getD 1 "" :=
  tags_text_language.1 [[""], ["a, b", "hello"]] (mkQuote 1 ["a, b", "hello"]) (by decide)

/-- Nested `Schema` struct of Go `Metadata` (`src/main.go`). -/
structure MetadataSchema where
  format : String
  encoding : String
  filetype : String
deriving DecidableEq, Repr

/-- Go struct `Metadata` (`src/main.go`).  `totalQuotes` is a record count,
modelled as `Nat`. -/
structure Metadata where
  version : String
  lastUpdated : String
  totalQuotes : Nat
  url : String
  schema : MetadataSchema
deriving DecidableEq, Repr

/-- Lines 139-148 of `ReadExcelFile` in `src/main.go`: build the metadata
value from the clock reading `now` (Go `time.Now().Format(time.RFC3339)`,
an external input here) and the accumulated record count `n`. -/
def buildMetadata (now : String) (n : Nat) : Metadata :=
  { version := "1.0", lastUpdated := now, totalQuotes := n, url := "path/to/file",
    schema := { format := "JSON", encoding := "UTF-8", filetype := "text" } }

/-- Go struct `QuotesData` (`src/main.go`): the quotes file's top-level
document, whose sole field is the record list. -/
structure QuotesData where
  quotes : List Quote
deriving DecidableEq, Repr

/-- The spreadsheet-reading collaborator as consumed by `ReadExcelFile`:
`sheets` models `file.GetSheetList()` and `rows` models
`file.GetRows(sheetName)`, which may fail with an error message. -/
structure Workbook where
  sheets : List String
  rows : String → Except String (List (List String))

/-- Error results of the conversion, one constructor per `return`-with-error
site in `src/main.go`: the wrapped open failure of `OpenExcelFile`, the
"no sheets found" error, the "unable to load cells" wrap of a `GetRows`
failure, and the two write failures (each wrapping the underlying cause). -/
inductive ConvError where
  | openError (cause : String)
  | noSheets
  | rowRead (cause : String)
  | writeQuotes (cause : String)
  | writeMetadata (cause : String)
deriving DecidableEq, Repr

/-- Observable outcome of one `ReadExcelFile` run: the returned value, the
document written to `quotes.json` (if that write happened) and the metadata
written to `quotesMetadata.json` (if that write happened). -/
structure RunResult where
  result : Except ConvError Unit
  quotesFile : Option QuotesData
  metadataFile : Option Metadata

/-- `ReadExcelFile` of `src/main.go` (lines 81-174).  External effects are
parameters: `now` is the clock reading and `qWriteErr` / `mWriteErr` give the
outcome of the `quotes.json` and `quotesMetadata.json` writes (`none` =
success).  A failed write leaves no (complete) file, modelled as `none` in
the corresponding `RunResult` slot; a write that is never attempted is also
`none`. -/
def ReadExcelFile (wb : Workbook) (now : String) (qWriteErr mWriteErr : Option String) :
    RunResult :=
  match wb.sheets with
  | [] => ⟨Except.error ConvError.noSheets, none, none⟩
  | sheetName :: _ =>
    match wb.rows sheetName with
    | Except.error e => ⟨Except.error (ConvError.rowRead e), none, none⟩
    | Except.ok rows =>
      let acc := accumulatedQuotes rows
      let metadata := buildMetadata now acc.length
      let quotesData : QuotesData := ⟨acc⟩
      match qWriteErr with
      | some e => ⟨Except.error (ConvError.writeQuotes e), none, none⟩
      | none =>
        match mWriteErr with
        | some e => ⟨Except.error (ConvError.writeMetadata e), some quotesData, none⟩
        | none => ⟨Except.ok (), some quotesData, some metadata⟩

/-- `ReadQuotesFromExcel` of `src/main.go` (lines 63-78).  `openResult` is
the outcome of the external `excelize.OpenFile` as wrapped by
`OpenExcelFile`; `closeErr` is the outcome of the deferred `file.Close()`.
Returned: the conversion result, whether the workbook handle was released,
and the log lines emitted. -/
def ReadQuotesFromExcel (openResult : Except String Workbook) (closeErr : Option String)
    (now : String) (qWriteErr mWriteErr : Option String) :
    Except ConvError Unit × Bool × List String :=
  match openResult with
  | Except.error e =>
    (Except.error (ConvError.openError e), false, ["Error opening Excel file"])
  | Except.ok wb =>
    ((ReadExcelFile wb now qWriteErr mWriteErr).result, true,
      match closeErr with
      | some _ => ["Error closing the Excel file"]
      | none => [])

/-- Opening brace character as a string. -/
def lbrace : String := String.mk [Char.ofNat 123]

/-- Closing brace character as a string. -/
def rbrace : String := String.mk [Char.ofNat 125]

/-- Lowercase hexadecimal digit, as used by Go `encoding/json` in `\u00xx`
escapes. -/
def hexDigit (n : Nat) : Char :=
  if n < 10 then Char.ofNat (48 + n) else Char.ofNat (87 + n)

/-- Escaping of one character inside a JSON string, following Go
`encoding/json` (HTML escaping on, so `<`, `>`, `&` become `\u00xx`). -/
def escapeChar (c : Char) : List Char :=
  if c = '"' then ['\\', '"']
  else if c = '\\' then ['\\', '\\']
  else if c = '\n' then ['\\', 'n']
  else if c = '\r' then ['\\', 'r']
  else if c = '\t' then ['\\', 't']
  else if c = '<' ∨ c = '>' ∨ c = '&' ∨ c.toNat < 32 then
    ['\\', 'u', '0', '0', hexDigit (c.toNat / 16 % 16), hexDigit (c.toNat % 16)]
  else [c]

/-- JSON string literal for `s`, per Go `encoding/json`. -/
def jsonStr (s : String) : String :=
  String.mk ('"' :: s.data.foldr (fun c acc => escapeChar c ++ acc) ['"'])

/-- Indentation of depth `n` for `MarshalIndent(v, "", "  ")`. -/
def indent2 (n : Nat) : String := String.mk (List.replicate (2 * n) ' ')

/-- JSON array of the tags at depth `n`, one element per line.  In this
program the tags list is the result of `strings.Split` and hence non-nil
and non-empty, so the `null`/`[]` renderings of nil/empty Go slices never
arise here. -/
def tagsJson (n : Nat) (tags : List String) : String :=
  "[\n" ++ String.intercalate ",\n" (tags.map fun t => indent2 (n + 1) ++ jsonStr t)
    ++ "\n" ++ indent2 n ++ "]"

/-- JSON object for one `Quote` at depth `n`, per
`json.MarshalIndent(·, "", "  ")`: fields in struct order, the `omitempty`
fields `author`, `year`, `context` omitted at their Go zero values. -/
def quoteJson (n : Nat) (q : Quote) : String :=
  indent2 n ++ lbrace ++ "\n"
  ++ indent2 (n + 1) ++ "\"id\": " ++ toString q.id ++ ",\n"
  ++ indent2 (n + 1) ++ "\"text\": " ++ jsonStr q.text ++ ",\n"
  ++ (if q.author = "" then "" else
      indent2 (n + 1) ++ "\"author\": " ++ jsonStr q.author ++ ",\n")
  ++ (if q.year = 0 then "" else
      indent2 (n + 1) ++ "\"year\": " ++ toString q.year ++ ",\n")
  ++ (if q.context = "" then "" else
      indent2 (n + 1) ++ "\"context\": " ++ jsonStr q.context ++ ",\n")
  ++ indent2 (n + 1) ++ "\"tags\": " ++ tagsJson (n + 1) q.tags ++ ",\n"
  ++ indent2 (n + 1) ++ "\"lang\": " ++ jsonStr q.language ++ "\n"
  ++ indent2 n ++ rbrace

/-- Bytes of `quotes.json`: `json.MarshalIndent(quotesData, "", "  ")` in
`WriteJSONToFile` (`src/main.go`, lines 176-191).  Go renders a nil slice
as `null`; in `ReadExcelFile` the accumulated slice is nil exactly when no
record was ever appended, i.e. exactly when the list is empty. -/
def marshalQuotesData (qd : QuotesData) : String :=
  if qd.quotes = [] then
    lbrace ++ "\n  \"quotes\": null\n" ++ rbrace
  else
    lbrace ++ "\n  \"quotes\": [\n"
      ++ String.intercalate ",\n" (qd.quotes.map (quoteJson 2))
      ++ "\n  ]\n" ++ rbrace

/-- Bytes of `quotesMetadata.json`: `json.MarshalIndent(metadata, "", " ")`
(`src/main.go`, line 162), one space per indentation level. -/
def marshalMetadata (m : Metadata) : String :=
  lbrace ++ "\n \"version\": " ++ jsonStr m.version
  ++ ",\n \"lastUpdated\": " ++ jsonStr m.lastUpdated
  ++ ",\n \"totalQuotes\": " ++ toString m.totalQuotes
  ++ ",\n \"url\": " ++ jsonStr m.url
  ++ ",\n \"schema\": " ++ lbrace
  ++ "\n  \"format\": " ++ jsonStr m.schema.format
  ++ ",\n  \"encoding\": " ++ jsonStr m.schema.encoding
  ++ ",\n  \"filetype\": " ++ jsonStr m.schema.filetype
  ++ "\n " ++ rbrace ++ "\n" ++ rbrace

/-- C5: on every successful conversion, the metadata written to
`quotesMetadata.json` has version `"1.0"`, url `"path/to/file"`, the
constant schema descriptor, and `totalQuotes` equal to the number of
records written to `quotes.json`. -/
theorem metadata_constants (wb : Workbook) (now : String) (qw mw : Option String)
    (h : (ReadExcelFile wb now qw mw).result = Except.ok ()) :
    ∃ qd md, (ReadExcelFile wb now qw mw).quotesFile = some qd ∧
      (ReadExcelFile wb now qw mw).metadataFile = some md ∧
      md.version = "1.0" ∧ md.url = "path/to/file" ∧
      md.schema = ⟨"JSON", "UTF-8", "text"⟩ ∧ md.totalQuotes = qd.quotes.length := by
  obtain ⟨sheets, rowsF⟩ := wb
  cases sheets with
  | nil => simp [ReadExcelFile] at h
  | cons s rest =>
    cases hr : rowsF s with
    | error e => simp [ReadExcelFile, hr] at h
    | ok rows =>
      cases qw with
      | some e => simp [ReadExcelFile, hr] at h
      | none =>
        cases mw with
        | some e => simp [ReadExcelFile, hr] at h
        | none =>
          exact ⟨⟨accumulatedQuotes rows⟩,
            buildMetadata now (accumulatedQuotes rows).length,
            by simp [ReadExcelFile, hr], by simp [ReadExcelFile, hr],
            rfl, rfl, rfl, rfl⟩

/-- C5 witness: the theorem applied to a concrete one-sheet workbook with
one retained row, both writes succeeding. -/
theorem metadata_constants_witness :
    (ReadExcelFile ⟨["Sheet1"], fun _ => Except.ok [["Tags", "Quote"], ["a,b", "t"]]⟩
        "2026-01-01T00:00:00Z" none none).result = Except.ok () ∧
    ∃ qd md,
      (ReadExcelFile ⟨["Sheet1"], fun _ => Except.ok [["Tags", "Quote"], ["a,b", "t"]]⟩
          "2026-01-01T00:00:00Z" none none).quotesFile = some qd ∧
      (ReadExcelFile ⟨["Sheet1"], fun _ => Except.ok [["Tags", "Quote"], ["a,b", "t"]]⟩
          "2026-01-01T00:00:00Z" none none).metadataFile = some md ∧
      md.version = "1.0" ∧ md.url = "path/to/file" ∧
      md.schema = ⟨"JSON", "UTF-8", "text"⟩ ∧ md.totalQuotes = qd.quotes.length :=
  ⟨rfl, metadata_constants _ _ _ _ rfl⟩

/-- C6: when the `quotes.json` write succeeds and the `quotesMetadata.json`
write then fails, `ReadExcelFile` returns the metadata write error wrapping
the underlying cause, the quotes file holds the accumulated records (not
rolled back), and the metadata file is absent. -/
theorem partial_write_outcome (wb : Workbook) (s : String) (rest : List String)
    (rows : List (List String)) (now e : String)
    (h1 : wb.sheets = s :: rest) (h2 : wb.rows s = Except.ok rows) :
    (ReadExcelFile wb now none (some e)).result
        = Except.error (ConvError.writeMetadata e) ∧
    (ReadExcelFile wb now none (some e)).quotesFile = some ⟨accumulatedQuotes rows⟩ ∧
    (ReadExcelFile wb now none (some e)).metadataFile = none := by
  obtain ⟨sheets, rowsF⟩ := wb
  simp only at h1 h2
  subst h1
  refine ⟨?_, ?_, ?_⟩ <;> simp [ReadExcelFile, h2]

/-- C6 witness: the theorem applied to a concrete workbook whose metadata
write fails with cause `"disk full"`. -/
theorem partial_write_outcome_witness :
    (ReadExcelFile ⟨["S"], fun _ => Except.ok [["a", "b"], ["c", "d"]]⟩
        "t" none (some "disk full")).result
      = Except.error (ConvError.writeMetadata "disk full") ∧
    (ReadExcelFile ⟨["S"], fun _ => Except.ok [["a", "b"], ["c", "d"]]⟩
        "t" none (some "disk full")).quotesFile
      = some ⟨accumulatedQuotes [["a", "b"], ["c", "d"]]⟩ ∧
    (ReadExcelFile ⟨["S"], fun _ => Except.ok [["a", "b"], ["c", "d"]]⟩
        "t" none (some "disk full")).metadataFile = none :=
  partial_write_outcome _ "S" [] _ "t" "disk full" rfl rfl

/-- C7: with zero sheets `ReadExcelFile` returns the no-sheets error, and
with a failing row extraction it returns the row-read error; in both cases
it returns before attempting either file write (for any write outcomes, no
output file is produced). -/
theorem early_error_no_write :
    (∀ (wb : Workbook) (now : String) (qw mw : Option String), wb.sheets = [] →
      (ReadExcelFile wb now qw mw).result = Except.error ConvError.noSheets ∧
      (ReadExcelFile wb now qw mw).quotesFile = none ∧
      (ReadExcelFile wb now qw mw).metadataFile = none) ∧
    (∀ (wb : Workbook) (s : String) (rest : List String) (e now : String)
        (qw mw : Option String),
      wb.sheets = s :: rest → wb.rows s = Except.error e →
      (ReadExcelFile wb now qw mw).result = Except.error (ConvError.rowRead e) ∧
      (ReadExcelFile wb now qw mw).quotesFile = none ∧
      (ReadExcelFile wb now qw mw).metadataFile = none) := by
  constructor
  · intro wb now qw mw h
    obtain ⟨sheets, rowsF⟩ := wb
    simp only at h
    subst h
    exact ⟨rfl, rfl, rfl⟩
  · intro wb s rest e now qw mw h1 h2
    obtain ⟨sheets, rowsF⟩ := wb
    simp only at h1 h2
    subst h1
    refine ⟨?_, ?_, ?_⟩ <;> simp [ReadExcelFile, h2]

/-- C7 witness: the theorem applied to a concrete zero-sheet workbook and a
concrete workbook whose row extraction fails. -/
theorem early_error_no_write_witness :
    ((ReadExcelFile ⟨[], fun _ => Except.ok []⟩ "t" none none).result
        = Except.error ConvError.noSheets ∧
      (ReadExcelFile ⟨[], fun _ => Except.ok []⟩ "t" none none).quotesFile = none ∧
      (ReadExcelFile ⟨[], fun _ => Except.ok []⟩ "t" none none).metadataFile = none) ∧
    ((ReadExcelFile ⟨["S"], fun _ => Except.error "corrupt"⟩ "t" none none).result
        = Except.error (ConvError.rowRead "corrupt") ∧
      (ReadExcelFile ⟨["S"], fun _ => Except.error "corrupt"⟩ "t" none none).quotesFile
        = none ∧
      (ReadExcelFile ⟨["S"], fun _ => Except.error "corrupt"⟩ "t" none none).metadataFile
        = none) :=
  ⟨early_error_no_write.1 _ "t" none none rfl,
    early_error_no_write.2 _ "S" [] "corrupt" "t" none none rfl rfl⟩

/-- C8: `ReadQuotesFromExcel` (`src/main.go`) returns the wrapped open error
to its caller when opening fails (no handle acquired, none released);
whenever the open succeeds the handle is released on every exit path; and
the outcome of the deferred close is logged only — it never alters the
returned result. -/
theorem open_close_contract :
    (∀ (e : String) (c : Option String) (now : String) (qw mw : Option String),
      ReadQuotesFromExcel (Except.error e) c now qw mw =
        (Except.error (ConvError.openError e), false, ["Error opening Excel file"])) ∧
    (∀ (wb : Workbook) (c : Option String) (now : String) (qw mw : Option String),
      (ReadQuotesFromExcel (Except.ok wb) c now qw mw).2.1 = true) ∧
    (∀ (wb : Workbook) (c1 c2 : Option String) (now : String) (qw mw : Option String),
      (ReadQuotesFromExcel (Except.ok wb) c1 now qw mw).1 =
        (ReadQuotesFromExcel (Except.ok wb) c2 now qw mw).1) :=
  ⟨fun _ _ _ _ _ => rfl, fun _ _ _ _ _ => rfl, fun _ _ _ _ _ _ => rfl⟩

/-- C9: the bytes written to `quotes.json` are a deterministic function of
the input rows alone — they do not depend on the clock reading, and two runs
over the same rows produce byte-identical quotes content; the metadata value
can differ between the two runs only in its `lastUpdated` field. -/
theorem quotes_bytes_deterministic :
    (∀ (wb : Workbook) (t1 t2 : String) (qw mw : Option String),
      ((ReadExcelFile wb t1 qw mw).quotesFile).map marshalQuotesData =
        ((ReadExcelFile wb t2 qw mw).quotesFile).map marshalQuotesData) ∧
    (∀ (wb : Workbook) (t1 t2 x : String) (qw mw : Option String),
      ((ReadExcelFile wb t1 qw mw).metadataFile).map
          (fun m => { m with lastUpdated := x }) =
        ((ReadExcelFile wb t2 qw mw).metadataFile).map
          (fun m => { m with lastUpdated := x })) ∧
    (∀ (wb : Workbook) (s : String) (rest : List String) (rows : List (List String))
        (now : String) (mw : Option String),
      wb.sheets = s :: rest → wb.rows s = Except.ok rows →
      ((ReadExcelFile wb now none mw).quotesFile).map marshalQuotesData =
        some (marshalQuotesData ⟨accumulatedQuotes rows⟩)) := by
  refine ⟨?_, ?_, ?_⟩
  · intro wb t1 t2 qw mw
    obtain ⟨sheets, rowsF⟩ := wb
    cases sheets with
    | nil => rfl
    | cons s rest =>
      cases hr : rowsF s with
      | error e => simp [ReadExcelFile, hr]
      | ok rows => cases qw <;> cases mw <;> simp [ReadExcelFile, hr]
  · intro wb t1 t2 x qw mw
    obtain ⟨sheets, rowsF⟩ := wb
    cases sheets with
    | nil => rfl
    | cons s rest =>
      cases hr : rowsF s with
      | error e => simp [ReadExcelFile, hr]
      | ok rows => cases qw <;> cases mw <;> simp [ReadExcelFile, hr, buildMetadata]
  · intro wb s rest rows now mw h1 h2
    obtain ⟨sheets, rowsF⟩ := wb
    simp only at h1 h2
    subst h1
    cases mw <;> simp [ReadExcelFile, h2]

/-- C9 witness: the third conjunct applied to a concrete workbook: the
quotes bytes equal the marshalled accumulated records of its rows. -/
theorem quotes_bytes_deterministic_witness :
    ((ReadExcelFile ⟨["S"], fun _ => Except.ok [["h", "h"], ["a", "b"]]⟩
        "t1" none none).quotesFile).map marshalQuotesData =
      some (marshalQuotesData ⟨accumulatedQuotes [["h", "h"], ["a", "b"]]⟩) :=
  quotes_bytes_deterministic.2.2 _ "S" [] _ "t1" none rfl rfl

theorem unbatchedLoop_eq_nil (rows : List (List String)) :
    ∀ i : Nat, (∀ j row, rows.get? j = some row → i + j = 0 ∨ row.length < 2) →
      unbatchedLoop rows i = [] := by
  induction rows with
  | nil => intro i _; rfl
  | cons row rest ih =>
    intro i h
    have hhead : i + 0 = 0 ∨ row.length < 2 := h 0 row rfl
    by_cases h0 : i = 0
    · subst h0
      simp only [unbatchedLoop, if_pos rfl]
      refine ih 1 (fun j r hj => ?_)
      rcases h (j + 1) r hj with hc | hc
      · exact absurd hc (by omega)
      · exact Or.inr hc
    · have hlen : row.length < 2 := by
        rcases hhead with hc | hc
        · exact absurd hc (by omega)
        · exact hc
      simp only [unbatchedLoop, if_neg h0, if_pos hlen]
      refine ih (i + 1) (fun j r hj => ?_)
      rcases h (j + 1) r hj with hc | hc
      · exact absurd hc (by omega)
      · exact Or.inr hc

theorem accumulated_nil (rows : List (List String))
    (h : ∀ i row, rows.get? i = some row → i = 0 ∨ row.length < 2) :
    accumulatedQuotes rows = [] := by
  rw [accumulatedQuotes, readExcelLoop_eq 100 rows 0 [] [], List.nil_append,
    List.nil_append]
  exact unbatchedLoop_eq_nil rows 0 (fun j r hj => by simpa using h j r hj)

/-- C10: when no row is retained (empty sheet, header only, or every data
row shorter than 2 cells), the record sequence is empty, the quotes
document serializes with its quotes field as JSON `null` (Go marshals the
nil slice as `null`), and the metadata reports `totalQuotes = 0`. -/
theorem no_retained_rows_null (wb : Workbook) (s : String) (rest : List String)
    (rows : List (List String)) (now : String)
    (h1 : wb.sheets = s :: rest) (h2 : wb.rows s = Except.ok rows)
    (h3 : ∀ i row, rows.get? i = some row → i = 0 ∨ row.length < 2) :
    (ReadExcelFile wb now none none).quotesFile = some ⟨[]⟩ ∧
    marshalQuotesData ⟨[]⟩ = lbrace ++ "\n  \"quotes\": null\n" ++ rbrace ∧
    (ReadExcelFile wb now none none).metadataFile = some (buildMetadata now 0) ∧
    (buildMetadata now 0).totalQuotes = 0 := by
  have hnil := accumulated_nil rows h3
  obtain ⟨sheets, rowsF⟩ := wb
  simp only at h1 h2
  subst h1
  refine ⟨?_, rfl, ?_, rfl⟩
  · simp [ReadExcelFile, h2, hnil]
  · simp [ReadExcelFile, h2, hnil]

/-- C10 witness: the theorem applied to a concrete workbook whose first
sheet has no rows at all. -/
theorem no_retained_rows_null_witness :
    (ReadExcelFile ⟨["S"], fun _ => Except.ok []⟩ "t" none none).quotesFile
      = some ⟨[]⟩ ∧
    marshalQuotesData ⟨[]⟩ = lbrace ++ "\n  \"quotes\": null\n" ++ rbrace ∧
    (ReadExcelFile ⟨["S"], fun _ => Except.ok []⟩ "t" none none).metadataFile
      = some (buildMetadata "t" 0) ∧
    (buildMetadata "t" 0).totalQuotes = 0 :=
  no_retained_rows_null _ "S" [] [] "t" rfl rfl (fun i row h => by simp at h)

end ToJson
